import Mathlib

/-!
Verification of the graph-padding component and orchestration glue of a
graph-neural-network library.  The padding operation (`PadToTotalSizes`)
itself is not among the provided source files (only its test is), so it is
modelled from the specification; the orchestration functions
(`make_preprocess_model`, the export loop of `run`) are embedded from their
Python source.

Features carry exact integer values: the padding operation only copies
existing rows and appends zero rows, so representing the float feature
values of the test by integers is exact.
-/

namespace GnnPad

/-- Error kinds of the padding call, from the error-handling design:
SchemaMismatch, CapacityExceeded, MalformedCeiling. -/
inductive PadError where
  | schemaMismatch : PadError
  | capacityExceeded : PadError
  | malformedCeiling : PadError
deriving DecidableEq, Repr

/-- A feature: a fixed row width and a list of rows (one row per component,
node or edge, depending on the piece the feature belongs to). -/
structure Feature where
  width : Nat
  rows : List (List Int)
deriving DecidableEq, Repr

/-- Modelled from the spec: appending `k` default-valued (zero) rows to a
feature array. -/
def Feature.pad (f : Feature) (k : Nat) : Feature :=
  ⟨f.width, f.rows ++ List.replicate k (List.replicate f.width 0)⟩

/-- The context piece: feature arrays indexed by component. -/
structure Context where
  features : List (String × Feature)
deriving DecidableEq, Repr

/-- Adjacency: referenced source/target node-set names and per-edge
flattened source/target node indices. -/
structure Adjacency where
  source_name : String
  target_name : String
  source : List Nat
  target : List Nat
deriving DecidableEq, Repr

/-- A node set: per-component sizes and feature arrays indexed by
flattened node. -/
structure NodeSet where
  sizes : List Nat
  features : List (String × Feature)
deriving DecidableEq, Repr

/-- An edge set: per-component sizes, an adjacency structure, and feature
arrays indexed by flattened edge. -/
structure EdgeSet where
  sizes : List Nat
  adjacency : Adjacency
  features : List (String × Feature)
deriving DecidableEq, Repr

/-- A graph batch: one flattened container of components with a context,
named node sets and named edge sets. -/
structure GraphTensor where
  num_components : Nat
  context : Context
  node_sets : List (String × NodeSet)
  edge_sets : List (String × EdgeSet)
deriving DecidableEq, Repr

/-- Size ceilings with already-normalized integer values. -/
structure SizeConstraints where
  total_num_components : Nat
  total_num_nodes : List (String × Nat)
  total_num_edges : List (String × Nat)
deriving DecidableEq, Repr

/-- A ceiling value as it arrives at the ingress boundary: either a bare
integer or a numeric container holding some elements. -/
inductive CeilingValue where
  | int : Nat → CeilingValue
  | container : List Nat → CeilingValue
deriving DecidableEq, Repr

/-- Modelled from the spec: the ingress conversion `toInt(value) -> int`;
accepts a bare integer or a single-element numeric container, rejects
anything else with a type error. -/
def CeilingValue.toInt : CeilingValue → Except PadError Nat
  | .int n => .ok n
  | .container [n] => .ok n
  | .container _ => .error .malformedCeiling

/-- Size ceilings before normalization. -/
structure RawSizeConstraints where
  total_num_components : CeilingValue
  total_num_nodes : List (String × CeilingValue)
  total_num_edges : List (String × CeilingValue)
deriving DecidableEq, Repr

/-- Normalize every value of a name-to-ceiling mapping. -/
def normalizeEntries : List (String × CeilingValue) →
    Except PadError (List (String × Nat))
  | [] => .ok []
  | p :: t => do
      let n ← p.2.toInt
      let rest ← normalizeEntries t
      return (p.1, n) :: rest

/-- Modelled from the spec: normalize every ceiling value to a plain
integer. -/
def normalizeConstraints (rc : RawSizeConstraints) :
    Except PadError SizeConstraints := do
  let t ← rc.total_num_components.toInt
  let ns ← normalizeEntries rc.total_num_nodes
  let es ← normalizeEntries rc.total_num_edges
  return ⟨t, ns, es⟩

/-- Modelled from the spec: extending a sizes array so the new synthetic
components absorb the size deficit.  The first padding component records
the deficit; further padding components are empty. -/
def padSizesList (sizes : List Nat) (deficit cpad : Nat) : List Nat :=
  match cpad with
  | 0 => sizes
  | Nat.succ k => sizes ++ deficit :: List.replicate k 0

/-- Modelled from the spec: padding one node set up to its ceiling given
`cpad` new synthetic components. -/
def NodeSet.pad (ns : NodeSet) (ceiling cpad : Nat) : NodeSet :=
  let deficit := ceiling - ns.sizes.sum
  ⟨padSizesList ns.sizes deficit cpad,
   ns.features.map (fun p => (p.1, p.2.pad deficit))⟩

/-- Modelled from the spec: synthetic adjacency entries all point at index
0 of the padded node range. -/
def Adjacency.pad (a : Adjacency) (deficit : Nat) : Adjacency :=
  ⟨a.source_name, a.target_name,
   a.source ++ List.replicate deficit 0,
   a.target ++ List.replicate deficit 0⟩

/-- Modelled from the spec: padding one edge set up to its ceiling given
`cpad` new synthetic components. -/
def EdgeSet.pad (es : EdgeSet) (ceiling cpad : Nat) : EdgeSet :=
  let deficit := ceiling - es.sizes.sum
  ⟨padSizesList es.sizes deficit cpad,
   es.adjacency.pad deficit,
   es.features.map (fun p => (p.1, p.2.pad deficit))⟩

/-- Schema precondition: every name referenced in the ceilings exists in
the batch, every batch piece has a declared ceiling, and every adjacency
references existing node sets. -/
def schemaOk (g : GraphTensor) (sc : SizeConstraints) : Bool :=
  sc.total_num_nodes.all (fun p => (g.node_sets.lookup p.1).isSome) &&
  sc.total_num_edges.all (fun p => (g.edge_sets.lookup p.1).isSome) &&
  g.node_sets.all (fun p => (sc.total_num_nodes.lookup p.1).isSome) &&
  g.edge_sets.all (fun p => (sc.total_num_edges.lookup p.1).isSome) &&
  g.edge_sets.all (fun p =>
    (g.node_sets.lookup p.2.adjacency.source_name).isSome &&
    (g.node_sets.lookup p.2.adjacency.target_name).isSome)

/-- Capacity precondition: every declared ceiling is at least the actual
current total of its piece. -/
def capacityOk (g : GraphTensor) (sc : SizeConstraints) : Bool :=
  decide (g.num_components ≤ sc.total_num_components) &&
  g.node_sets.all
    (fun p => decide (p.2.sizes.sum ≤ (sc.total_num_nodes.lookup p.1).getD 0)) &&
  g.edge_sets.all
    (fun p => decide (p.2.sizes.sum ≤ (sc.total_num_edges.lookup p.1).getD 0))

/-- Modelled from the spec: padding must be realizable — synthetic nodes
and edges need a synthetic component to belong to (so a batch already at
its component ceiling admits no node/edge deficit), and a synthetic edge
needs a nonempty padded node range to point into.  The real content does
not fit in the declared budget otherwise, which is a capacity error. -/
def paddableOk (g : GraphTensor) (sc : SizeConstraints) : Bool :=
  (if sc.total_num_components - g.num_components = 0 then
    g.node_sets.all
      (fun p => decide ((sc.total_num_nodes.lookup p.1).getD 0 = p.2.sizes.sum)) &&
    g.edge_sets.all
      (fun p => decide ((sc.total_num_edges.lookup p.1).getD 0 = p.2.sizes.sum))
   else true) &&
  g.edge_sets.all (fun p =>
    decide ((sc.total_num_edges.lookup p.1).getD 0 - p.2.sizes.sum = 0) ||
    (decide (0 < (sc.total_num_nodes.lookup p.2.adjacency.source_name).getD 0) &&
     decide (0 < (sc.total_num_nodes.lookup p.2.adjacency.target_name).getD 0)))

/-- The padded batch and its component mask, for inputs that passed all
checks. -/
def padResult (g : GraphTensor) (sc : SizeConstraints) :
    GraphTensor × List Bool :=
  let cpad := sc.total_num_components - g.num_components
  (⟨sc.total_num_components,
    ⟨g.context.features.map (fun p => (p.1, p.2.pad cpad))⟩,
    g.node_sets.map
      (fun p => (p.1, p.2.pad ((sc.total_num_nodes.lookup p.1).getD 0) cpad)),
    g.edge_sets.map
      (fun p => (p.1, p.2.pad ((sc.total_num_edges.lookup p.1).getD 0) cpad))⟩,
   List.replicate g.num_components true ++ List.replicate cpad false)

/-- Modelled from the spec: the padding operation `PadToTotalSizes`
(absent from the provided sources; only its test is present).
`pad(batch, ceilings) -> (padded_batch, component_mask)`, failing with a
SchemaMismatch or CapacityExceeded error when the preconditions are
violated. -/
def padToTotalSizes (g : GraphTensor) (sc : SizeConstraints) :
    Except PadError (GraphTensor × List Bool) :=
  if schemaOk g sc then
    if capacityOk g sc && paddableOk g sc then .ok (padResult g sc)
    else .error .capacityExceeded
  else .error .schemaMismatch

/-- Modelled from the spec: the full padding call with ceiling
normalization at the ingress boundary. -/
def padToTotalSizesRaw (g : GraphTensor) (rc : RawSizeConstraints) :
    Except PadError (GraphTensor × List Bool) := do
  let sc ← normalizeConstraints rc
  padToTotalSizes g sc

/-- The test graph of `PadToTotalSizesTest._make_test_graph`: one
component, a context feature `label = [42]`, node set `nodes` with sizes
`[1]` and feature `[[1., 2.]]`, edge set `edges` with sizes `[1]`, a
self-loop adjacency on node 0 and feature `[1.0]`. -/
def testGraph : GraphTensor :=
  ⟨1,
   ⟨[("label", ⟨1, [[42]]⟩)]⟩,
   [("nodes", ⟨[1], [("feature", ⟨2, [[1, 2]]⟩)]⟩)],
   [("edges", ⟨[1], ⟨"nodes", "nodes", [0], [0]⟩, [("weight", ⟨1, [[1]]⟩)]⟩)]⟩

/-- The size constraints of the test: 2 components, 3 nodes, 4 edges. -/
def testConstraints : SizeConstraints :=
  ⟨2, [("nodes", 3)], [("edges", 4)]⟩

/-- The raw size constraints exactly as the test builds them: the edge
ceiling arrives as a single-element numeric container
(`tf.constant(4)`). -/
def testRawConstraints : RawSizeConstraints :=
  ⟨.int 2, [("nodes", .int 3)], [("edges", .container [4])]⟩

/-- The padded graph the test expects. -/
def paddedTestGraph : GraphTensor :=
  ⟨2,
   ⟨[("label", ⟨1, [[42], [0]]⟩)]⟩,
   [("nodes", ⟨[1, 2], [("feature", ⟨2, [[1, 2], [0, 0], [0, 0]]⟩)]⟩)],
   [("edges", ⟨[1, 3], ⟨"nodes", "nodes", [0, 0, 0, 0], [0, 0, 0, 0]⟩,
     [("weight", ⟨1, [[1], [0], [0], [0]]⟩)]⟩)]⟩

theorem lookup_map_keys {β γ : Type} (f : String → β → γ) :
    ∀ (l : List (String × β)) (a : String),
      List.lookup a (l.map (fun p => (p.1, f p.1 p.2))) =
        (List.lookup a l).map (f a)
  | [], _ => rfl
  | (k, b) :: t, a => by
      by_cases h : a = k
      · subst h
        simp [List.lookup]
      · have hb : (a == k) = false := beq_eq_false_iff_ne.mpr h
        simp [List.lookup, hb, lookup_map_keys f t a]

theorem mem_of_lookup_eq_some {β : Type} :
    ∀ {l : List (String × β)} {a : String} {b : β},
      List.lookup a l = some b → (a, b) ∈ l
  | (k, c) :: t, a, b, h => by
      by_cases hk : a = k
      · subst hk
        simp [List.lookup] at h
        simp [h]
      · have hb : (a == k) = false := beq_eq_false_iff_ne.mpr hk
        simp [List.lookup, hb] at h
        exact List.mem_cons_of_mem _ (mem_of_lookup_eq_some h)

theorem sum_padSizesList (s : List Nat) (d k : Nat) :
    (padSizesList s d (k + 1)).sum = s.sum + d := by
  simp [padSizesList, List.sum_replicate]

theorem sum_pad_sizes (s : List Nat) (c cpad : Nat) (hle : s.sum ≤ c)
    (hz : cpad = 0 → c = s.sum) :
    (padSizesList s (c - s.sum) cpad).sum = c := by
  cases cpad with
  | zero => simpa [padSizesList] using (hz rfl).symm
  | succ k => rw [sum_padSizesList]; exact Nat.add_sub_cancel' hle

theorem take_padSizesList (s : List Nat) (d k : Nat) :
    (padSizesList s d k).take s.length = s := by
  cases k with
  | zero => simp [padSizesList]
  | succ k =>
      simp only [padSizesList]
      exact List.take_left s (d :: List.replicate k 0)

/-- Inversion of a successful padding call: all checks passed and the
output is `padResult`. -/
theorem pad_ok_elim {g : GraphTensor} {sc : SizeConstraints}
    {out : GraphTensor × List Bool}
    (h : padToTotalSizes g sc = .ok out) :
    schemaOk g sc = true ∧ capacityOk g sc = true ∧ paddableOk g sc = true ∧
    out = padResult g sc := by
  unfold padToTotalSizes at h
  split at h
  · split at h
    · rename_i h1 h2
      injection h with h3
      simp only [Bool.and_eq_true] at h2
      exact ⟨h1, h2.1, h2.2, h3.symm⟩
    · cases h
  · cases h

theorem capacity_components {g : GraphTensor} {sc : SizeConstraints}
    (hcap : capacityOk g sc = true) :
    g.num_components ≤ sc.total_num_components := by
  simp only [capacityOk, Bool.and_eq_true, decide_eq_true_eq] at hcap
  exact hcap.1.1

theorem capacity_node {g : GraphTensor} {sc : SizeConstraints}
    (hcap : capacityOk g sc = true) {name : String} {ns : NodeSet}
    (h : g.node_sets.lookup name = some ns) :
    ns.sizes.sum ≤ (sc.total_num_nodes.lookup name).getD 0 := by
  simp only [capacityOk, Bool.and_eq_true, List.all_eq_true,
    decide_eq_true_eq] at hcap
  exact hcap.1.2 _ (mem_of_lookup_eq_some h)

theorem capacity_edge {g : GraphTensor} {sc : SizeConstraints}
    (hcap : capacityOk g sc = true) {name : String} {es : EdgeSet}
    (h : g.edge_sets.lookup name = some es) :
    es.sizes.sum ≤ (sc.total_num_edges.lookup name).getD 0 := by
  simp only [capacityOk, Bool.and_eq_true, List.all_eq_true,
    decide_eq_true_eq] at hcap
  exact hcap.2 _ (mem_of_lookup_eq_some h)

theorem schema_node {g : GraphTensor} {sc : SizeConstraints}
    (hsch : schemaOk g sc = true) {name : String} {ns : NodeSet}
    (h : g.node_sets.lookup name = some ns) :
    ∃ c, sc.total_num_nodes.lookup name = some c := by
  simp only [schemaOk, Bool.and_eq_true, List.all_eq_true] at hsch
  have := hsch.1.1.2 _ (mem_of_lookup_eq_some h)
  exact Option.isSome_iff_exists.mp this

theorem schema_edge {g : GraphTensor} {sc : SizeConstraints}
    (hsch : schemaOk g sc = true) {name : String} {es : EdgeSet}
    (h : g.edge_sets.lookup name = some es) :
    ∃ c, sc.total_num_edges.lookup name = some c := by
  simp only [schemaOk, Bool.and_eq_true, List.all_eq_true] at hsch
  have := hsch.1.2 _ (mem_of_lookup_eq_some h)
  exact Option.isSome_iff_exists.mp this

theorem schema_adjacency {g : GraphTensor} {sc : SizeConstraints}
    (hsch : schemaOk g sc = true) {name : String} {es : EdgeSet}
    (h : g.edge_sets.lookup name = some es) :
    (∃ ns, g.node_sets.lookup es.adjacency.source_name = some ns) ∧
    (∃ ns, g.node_sets.lookup es.adjacency.target_name = some ns) := by
  simp only [schemaOk, Bool.and_eq_true, List.all_eq_true] at hsch
  have := hsch.2 _ (mem_of_lookup_eq_some h)
  exact ⟨Option.isSome_iff_exists.mp this.1,
         Option.isSome_iff_exists.mp this.2⟩

theorem paddable_node_exact {g : GraphTensor} {sc : SizeConstraints}
    (hpad : paddableOk g sc = true)
    (hc : sc.total_num_components - g.num_components = 0)
    {name : String} {ns : NodeSet}
    (h : g.node_sets.lookup name = some ns) :
    (sc.total_num_nodes.lookup name).getD 0 = ns.sizes.sum := by
  simp only [paddableOk, Bool.and_eq_true] at hpad
  have h1 := hpad.1
  rw [if_pos hc] at h1
  simp only [Bool.and_eq_true, List.all_eq_true, decide_eq_true_eq] at h1
  exact h1.1 _ (mem_of_lookup_eq_some h)

theorem paddable_edge_exact {g : GraphTensor} {sc : SizeConstraints}
    (hpad : paddableOk g sc = true)
    (hc : sc.total_num_components - g.num_components = 0)
    {name : String} {es : EdgeSet}
    (h : g.edge_sets.lookup name = some es) :
    (sc.total_num_edges.lookup name).getD 0 = es.sizes.sum := by
  simp only [paddableOk, Bool.and_eq_true] at hpad
  have h1 := hpad.1
  rw [if_pos hc] at h1
  simp only [Bool.and_eq_true, List.all_eq_true, decide_eq_true_eq] at h1
  exact h1.2 _ (mem_of_lookup_eq_some h)

theorem paddable_edge_nodes {g : GraphTensor} {sc : SizeConstraints}
    (hpad : paddableOk g sc = true) {name : String} {es : EdgeSet}
    (h : g.edge_sets.lookup name = some es) :
    (sc.total_num_edges.lookup name).getD 0 - es.sizes.sum = 0 ∨
    (0 < (sc.total_num_nodes.lookup es.adjacency.source_name).getD 0 ∧
     0 < (sc.total_num_nodes.lookup es.adjacency.target_name).getD 0) := by
  simp only [paddableOk, Bool.and_eq_true, List.all_eq_true] at hpad
  have := hpad.2 _ (mem_of_lookup_eq_some h)
  simp only [Bool.or_eq_true, Bool.and_eq_true, decide_eq_true_eq] at this
  exact this

theorem node_sets_of_padResult (g : GraphTensor) (sc : SizeConstraints)
    (name : String) :
    (padResult g sc).1.node_sets.lookup name =
      (g.node_sets.lookup name).map
        (fun ns => ns.pad ((sc.total_num_nodes.lookup name).getD 0)
          (sc.total_num_components - g.num_components)) := by
  exact lookup_map_keys
    (fun n ns => ns.pad ((sc.total_num_nodes.lookup n).getD 0)
      (sc.total_num_components - g.num_components)) g.node_sets name

theorem edge_sets_of_padResult (g : GraphTensor) (sc : SizeConstraints)
    (name : String) :
    (padResult g sc).1.edge_sets.lookup name =
      (g.edge_sets.lookup name).map
        (fun es => es.pad ((sc.total_num_edges.lookup name).getD 0)
          (sc.total_num_components - g.num_components)) := by
  exact lookup_map_keys
    (fun n es => es.pad ((sc.total_num_edges.lookup n).getD 0)
      (sc.total_num_components - g.num_components)) g.edge_sets name

theorem context_of_padResult (g : GraphTensor) (sc : SizeConstraints)
    (fname : String) :
    (padResult g sc).1.context.features.lookup fname =
      (g.context.features.lookup fname).map
        (fun f => f.pad (sc.total_num_components - g.num_components)) := by
  exact lookup_map_keys
    (fun _ f => f.pad (sc.total_num_components - g.num_components))
    g.context.features fname

/-- Sum of the padded sizes of a node set found in the output equals its
declared ceiling. -/
theorem padded_node_sum {g : GraphTensor} {sc : SizeConstraints}
    (hcap : capacityOk g sc = true) (hpad : paddableOk g sc = true)
    {name : String} {ns : NodeSet}
    (h : g.node_sets.lookup name = some ns) :
    ((ns.pad ((sc.total_num_nodes.lookup name).getD 0)
        (sc.total_num_components - g.num_components)).sizes).sum =
      (sc.total_num_nodes.lookup name).getD 0 := by
  unfold NodeSet.pad
  exact sum_pad_sizes _ _ _ (capacity_node hcap h)
    (fun hc => paddable_node_exact hpad hc h)

/-- Sum of the padded sizes of an edge set found in the output equals its
declared ceiling. -/
theorem padded_edge_sum {g : GraphTensor} {sc : SizeConstraints}
    (hcap : capacityOk g sc = true) (hpad : paddableOk g sc = true)
    {name : String} {es : EdgeSet}
    (h : g.edge_sets.lookup name = some es) :
    ((es.pad ((sc.total_num_edges.lookup name).getD 0)
        (sc.total_num_components - g.num_components)).sizes).sum =
      (sc.total_num_edges.lookup name).getD 0 := by
  unfold EdgeSet.pad
  exact sum_pad_sizes _ _ _ (capacity_edge hcap h)
    (fun hc => paddable_edge_exact hpad hc h)

/-- C1: for every valid input pair, the padded output has component count
exactly `ceilings.total_num_components`, and for every node-set and
edge-set name the sum of that set's output sizes array equals the declared
ceiling for that name. -/
theorem pad_size_conformance (g : GraphTensor) (sc : SizeConstraints)
    (gp : GraphTensor) (mask : List Bool)
    (h : padToTotalSizes g sc = .ok (gp, mask)) :
    gp.num_components = sc.total_num_components ∧
    (∀ name ns, g.node_sets.lookup name = some ns →
      ∃ c np, sc.total_num_nodes.lookup name = some c ∧
        gp.node_sets.lookup name = some np ∧ np.sizes.sum = c) ∧
    (∀ name es, g.edge_sets.lookup name = some es →
      ∃ c ep, sc.total_num_edges.lookup name = some c ∧
        gp.edge_sets.lookup name = some ep ∧ ep.sizes.sum = c) := by
  obtain ⟨hsch, hcap, hpad, hout⟩ := pad_ok_elim h
  have hgp : gp = (padResult g sc).1 := congrArg Prod.fst hout
  refine ⟨by rw [hgp]; rfl, ?_, ?_⟩
  · intro name ns hns
    obtain ⟨c, hc⟩ := schema_node hsch hns
    refine ⟨c, ns.pad ((sc.total_num_nodes.lookup name).getD 0)
      (sc.total_num_components - g.num_components), hc, ?_, ?_⟩
    · rw [hgp, node_sets_of_padResult, hns]
      rfl
    · have := padded_node_sum hcap hpad hns
      rw [hc] at this
      simpa [hc] using this
  · intro name es hes
    obtain ⟨c, hc⟩ := schema_edge hsch hes
    refine ⟨c, es.pad ((sc.total_num_edges.lookup name).getD 0)
      (sc.total_num_components - g.num_components), hc, ?_, ?_⟩
    · rw [hgp, edge_sets_of_padResult, hes]
      rfl
    · have := padded_edge_sum hcap hpad hes
      rw [hc] at this
      simpa [hc] using this

/-- C1 witness: the theorem applied to the concrete test graph and
constraints. -/
theorem pad_size_conformance_witness :
    padToTotalSizes testGraph testConstraints =
      .ok (paddedTestGraph, [true, false]) ∧
    paddedTestGraph.num_components = testConstraints.total_num_components :=
  ⟨rfl,
   (pad_size_conformance testGraph testConstraints paddedTestGraph
     [true, false] rfl).1⟩

/-- C2: on the concrete test input (1 component, context label `[42]`,
node set `nodes` with sizes `[1]` and feature `[[1., 2.]]`, edge set
`edges` with sizes `[1]`, feature `[1.0]` and a self-loop on node 0),
padded with ceilings `{components: 2, nodes: 3, edges: 4}` (edges given as
a numeric container), the padder returns mask `[true, false]`, component
count 2, context label `[42, 0]`, node sizes `[1, 2]`, node features
`[[1,2],[0,0],[0,0]]`, edge sizes `[1, 3]` and edge feature
`[1, 0, 0, 0]`. -/
theorem pad_concrete_scenario :
    padToTotalSizesRaw testGraph testRawConstraints =
      .ok (paddedTestGraph, [true, false]) ∧
    paddedTestGraph.num_components = 2 ∧
    paddedTestGraph.context.features.lookup "label" =
      some ⟨1, [[42], [0]]⟩ ∧
    paddedTestGraph.node_sets.lookup "nodes" =
      some ⟨[1, 2], [("feature", ⟨2, [[1, 2], [0, 0], [0, 0]]⟩)]⟩ ∧
    paddedTestGraph.edge_sets.lookup "edges" =
      some ⟨[1, 3], ⟨"nodes", "nodes", [0, 0, 0, 0], [0, 0, 0, 0]⟩,
        [("weight", ⟨1, [[1], [0], [0], [0]]⟩)]⟩ := by
  exact ⟨rfl, rfl, rfl, rfl, rfl⟩

/-- C3: for every valid input pair, the returned component mask is a
boolean sequence of length `ceilings.total_num_components` whose first
`original_num_components` entries are `true` and whose remaining entries
are `false`. -/
theorem pad_mask_correctness (g : GraphTensor) (sc : SizeConstraints)
    (gp : GraphTensor) (mask : List Bool)
    (h : padToTotalSizes g sc = .ok (gp, mask)) :
    mask.length = sc.total_num_components ∧
    mask.take g.num_components = List.replicate g.num_components true ∧
    mask.drop g.num_components =
      List.replicate (sc.total_num_components - g.num_components) false := by
  obtain ⟨_, hcap, _, hout⟩ := pad_ok_elim h
  have hmask : mask = (padResult g sc).2 := congrArg Prod.snd hout
  have hle := capacity_components hcap
  subst hmask
  refine ⟨?_, ?_, ?_⟩
  · simp [padResult, Nat.add_sub_cancel' hle]
  · have := List.take_left (List.replicate g.num_components true)
      (List.replicate (sc.total_num_components - g.num_components) false)
    rwa [List.length_replicate] at this
  · have := List.drop_left (List.replicate g.num_components true)
      (List.replicate (sc.total_num_components - g.num_components) false)
    rwa [List.length_replicate] at this

/-- C3 witness: the theorem applied to the concrete test graph and
constraints. -/
theorem pad_mask_correctness_witness :
    padToTotalSizes testGraph testConstraints =
      .ok (paddedTestGraph, [true, false]) ∧
    ([true, false] : List Bool).length = testConstraints.total_num_components :=
  ⟨rfl,
   (pad_mask_correctness testGraph testConstraints paddedTestGraph
     [true, false] rfl).1⟩

theorem take_pad_rows (f : Feature) (k : Nat) :
    (f.pad k).rows.take f.rows.length = f.rows := by
  simp only [Feature.pad]
  exact List.take_left f.rows _

/-- C5: when the batch schema matches the ceilings but some declared
ceiling is strictly less than the corresponding actual total, the pad call
returns a CapacityExceeded error and no output. -/
theorem pad_capacity_exceeded (g : GraphTensor) (sc : SizeConstraints)
    (hsch : schemaOk g sc = true)
    (hviol : sc.total_num_components < g.num_components ∨
      (∃ name ns c, g.node_sets.lookup name = some ns ∧
        sc.total_num_nodes.lookup name = some c ∧ c < ns.sizes.sum) ∨
      (∃ name es c, g.edge_sets.lookup name = some es ∧
        sc.total_num_edges.lookup name = some c ∧ c < es.sizes.sum)) :
    padToTotalSizes g sc = .error .capacityExceeded := by
  have hcap : capacityOk g sc = false := by
    rw [Bool.eq_false_iff]
    intro hc
    rcases hviol with h1 | ⟨name, ns, c, hl, hsc, hlt⟩ |
      ⟨name, es, c, hl, hsc, hlt⟩
    · exact absurd (capacity_components hc) (Nat.not_le.mpr h1)
    · have := capacity_node hc hl
      rw [hsc] at this
      exact absurd this (Nat.not_le.mpr hlt)
    · have := capacity_edge hc hl
      rw [hsc] at this
      exact absurd this (Nat.not_le.mpr hlt)
  simp [padToTotalSizes, hsch, hcap]

/-- C5 witness: the test graph with a component ceiling of 0 fails with
CapacityExceeded. -/
theorem pad_capacity_exceeded_witness :
    schemaOk testGraph ⟨0, [("nodes", 3)], [("edges", 4)]⟩ = true ∧
    (0 : Nat) < testGraph.num_components ∧
    padToTotalSizes testGraph ⟨0, [("nodes", 3)], [("edges", 4)]⟩ =
      .error .capacityExceeded :=
  ⟨rfl, by decide,
   pad_capacity_exceeded testGraph ⟨0, [("nodes", 3)], [("edges", 4)]⟩ rfl
     (Or.inl (by decide))⟩

/-- C6: every feature value of the original components, nodes and edges
appears unchanged at its original relative position in the padded output
(the original arrays are prefixes of the padded arrays); the input is a
pure value, never mutated. -/
theorem pad_content_preservation (g : GraphTensor) (sc : SizeConstraints)
    (gp : GraphTensor) (mask : List Bool)
    (h : padToTotalSizes g sc = .ok (gp, mask)) :
    (∀ fname f, g.context.features.lookup fname = some f →
      ∃ fp, gp.context.features.lookup fname = some fp ∧
        fp.width = f.width ∧ fp.rows.take f.rows.length = f.rows) ∧
    (∀ name ns, g.node_sets.lookup name = some ns →
      ∃ np, gp.node_sets.lookup name = some np ∧
        np.sizes.take ns.sizes.length = ns.sizes ∧
        ∀ fname f, ns.features.lookup fname = some f →
          ∃ fp, np.features.lookup fname = some fp ∧
            fp.width = f.width ∧ fp.rows.take f.rows.length = f.rows) ∧
    (∀ name es, g.edge_sets.lookup name = some es →
      ∃ ep, gp.edge_sets.lookup name = some ep ∧
        ep.sizes.take es.sizes.length = es.sizes ∧
        ep.adjacency.source_name = es.adjacency.source_name ∧
        ep.adjacency.target_name = es.adjacency.target_name ∧
        ep.adjacency.source.take es.adjacency.source.length =
          es.adjacency.source ∧
        ep.adjacency.target.take es.adjacency.target.length =
          es.adjacency.target ∧
        ∀ fname f, es.features.lookup fname = some f →
          ∃ fp, ep.features.lookup fname = some fp ∧
            fp.width = f.width ∧ fp.rows.take f.rows.length = f.rows) := by
  obtain ⟨_, _, _, hout⟩ := pad_ok_elim h
  have hgp : gp = (padResult g sc).1 := congrArg Prod.fst hout
  subst hgp
  refine ⟨?_, ?_, ?_⟩
  · intro fname f hf
    refine ⟨f.pad (sc.total_num_components - g.num_components), ?_, rfl, ?_⟩
    · rw [context_of_padResult, hf]
      rfl
    · exact take_pad_rows f _
  · intro name ns hns
    refine ⟨ns.pad ((sc.total_num_nodes.lookup name).getD 0)
      (sc.total_num_components - g.num_components), ?_, ?_, ?_⟩
    · rw [node_sets_of_padResult, hns]
      rfl
    · exact take_padSizesList ns.sizes _ _
    · intro fname f hf
      refine ⟨f.pad ((sc.total_num_nodes.lookup name).getD 0 - ns.sizes.sum),
        ?_, rfl, take_pad_rows f _⟩
      have := lookup_map_keys
        (fun _ f => Feature.pad f
          ((sc.total_num_nodes.lookup name).getD 0 - ns.sizes.sum))
        ns.features fname
      simp only [NodeSet.pad]
      rw [this, hf]
      rfl
  · intro name es hes
    refine ⟨es.pad ((sc.total_num_edges.lookup name).getD 0)
      (sc.total_num_components - g.num_components),
      ?_, ?_, rfl, rfl, ?_, ?_, ?_⟩
    · rw [edge_sets_of_padResult, hes]
      rfl
    · exact take_padSizesList es.sizes _ _
    · exact List.take_left es.adjacency.source _
    · exact List.take_left es.adjacency.target _
    · intro fname f hf
      refine ⟨f.pad ((sc.total_num_edges.lookup name).getD 0 - es.sizes.sum),
        ?_, rfl, take_pad_rows f _⟩
      have := lookup_map_keys
        (fun _ f => Feature.pad f
          ((sc.total_num_edges.lookup name).getD 0 - es.sizes.sum))
        es.features fname
      simp only [EdgeSet.pad]
      rw [this, hf]
      rfl

/-- C6 witness: the theorem applied to the concrete test graph; the
context label of the output starts with the original value 42. -/
theorem pad_content_preservation_witness :
    padToTotalSizes testGraph testConstraints =
      .ok (paddedTestGraph, [true, false]) ∧
    testGraph.context.features.lookup "label" = some ⟨1, [[42]]⟩ ∧
    (∃ fp, paddedTestGraph.context.features.lookup "label" = some fp ∧
      fp.width = 1 ∧ fp.rows.take 1 = [[42]]) :=
  ⟨rfl, rfl,
   (pad_content_preservation testGraph testConstraints paddedTestGraph
     [true, false] rfl).1 "label" ⟨1, [[42]]⟩ rfl⟩

/-- C8: every synthetic (padding) edge in the output carries source and
target indices that are valid indices into the padded node arrays of the
referenced node sets. -/
theorem pad_referential_integrity (g : GraphTensor) (sc : SizeConstraints)
    (gp : GraphTensor) (mask : List Bool)
    (h : padToTotalSizes g sc = .ok (gp, mask)) :
    ∀ name es ep, g.edge_sets.lookup name = some es →
      gp.edge_sets.lookup name = some ep →
      ∃ np tp,
        gp.node_sets.lookup ep.adjacency.source_name = some np ∧
        gp.node_sets.lookup ep.adjacency.target_name = some tp ∧
        (∀ i ∈ ep.adjacency.source.drop es.adjacency.source.length,
          i < np.sizes.sum) ∧
        (∀ i ∈ ep.adjacency.target.drop es.adjacency.target.length,
          i < tp.sizes.sum) := by
  obtain ⟨hsch, hcap, hpad, hout⟩ := pad_ok_elim h
  have hgp : gp = (padResult g sc).1 := congrArg Prod.fst hout
  subst hgp
  intro name es ep hes hep
  rw [edge_sets_of_padResult, hes] at hep
  have hep2 : es.pad ((sc.total_num_edges.lookup name).getD 0)
      (sc.total_num_components - g.num_components) = ep :=
    Option.some.inj hep
  subst hep2
  obtain ⟨⟨ns0, hns0⟩, ⟨nt0, hnt0⟩⟩ := schema_adjacency hsch hes
  refine ⟨ns0.pad ((sc.total_num_nodes.lookup es.adjacency.source_name).getD 0)
      (sc.total_num_components - g.num_components),
    nt0.pad ((sc.total_num_nodes.lookup es.adjacency.target_name).getD 0)
      (sc.total_num_components - g.num_components), ?_, ?_, ?_, ?_⟩
  · show (padResult g sc).1.node_sets.lookup es.adjacency.source_name = _
    rw [node_sets_of_padResult, hns0]
    rfl
  · show (padResult g sc).1.node_sets.lookup es.adjacency.target_name = _
    rw [node_sets_of_padResult, hnt0]
    rfl
  · intro i hi
    have hdrop : (es.pad ((sc.total_num_edges.lookup name).getD 0)
        (sc.total_num_components - g.num_components)).adjacency.source.drop
          es.adjacency.source.length =
        List.replicate
          ((sc.total_num_edges.lookup name).getD 0 - es.sizes.sum) 0 :=
      List.drop_left es.adjacency.source _
    rw [hdrop] at hi
    obtain ⟨hd, hi0⟩ := List.mem_replicate.mp hi
    subst hi0
    rw [padded_node_sum hcap hpad hns0]
    rcases paddable_edge_nodes hpad hes with hz | ⟨hs, _⟩
    · exact absurd hz hd
    · exact hs
  · intro i hi
    have hdrop : (es.pad ((sc.total_num_edges.lookup name).getD 0)
        (sc.total_num_components - g.num_components)).adjacency.target.drop
          es.adjacency.target.length =
        List.replicate
          ((sc.total_num_edges.lookup name).getD 0 - es.sizes.sum) 0 :=
      List.drop_left es.adjacency.target _
    rw [hdrop] at hi
    obtain ⟨hd, hi0⟩ := List.mem_replicate.mp hi
    subst hi0
    rw [padded_node_sum hcap hpad hnt0]
    rcases paddable_edge_nodes hpad hes with hz | ⟨_, ht⟩
    · exact absurd hz hd
    · exact ht

/-- C8 witness: the theorem applied to the concrete test graph and its
edge set. -/
theorem pad_referential_integrity_witness :
    padToTotalSizes testGraph testConstraints =
      .ok (paddedTestGraph, [true, false]) ∧
    testGraph.edge_sets.lookup "edges" =
      some ⟨[1], ⟨"nodes", "nodes", [0], [0]⟩, [("weight", ⟨1, [[1]]⟩)]⟩ ∧
    paddedTestGraph.edge_sets.lookup "edges" =
      some ⟨[1, 3], ⟨"nodes", "nodes", [0, 0, 0, 0], [0, 0, 0, 0]⟩,
        [("weight", ⟨1, [[1], [0], [0], [0]]⟩)]⟩ ∧
    (∃ np tp,
      paddedTestGraph.node_sets.lookup "nodes" = some np ∧
      paddedTestGraph.node_sets.lookup "nodes" = some tp ∧
      (∀ i ∈ ([0, 0, 0, 0] : List Nat).drop 1, i < np.sizes.sum) ∧
      (∀ i ∈ ([0, 0, 0, 0] : List Nat).drop 1, i < tp.sizes.sum)) :=
  ⟨rfl, rfl, rfl,
   pad_referential_integrity testGraph testConstraints paddedTestGraph
     [true, false] rfl "edges"
     ⟨[1], ⟨"nodes", "nodes", [0], [0]⟩, [("weight", ⟨1, [[1]]⟩)]⟩
     ⟨[1, 3], ⟨"nodes", "nodes", [0, 0, 0, 0], [0, 0, 0, 0]⟩,
       [("weight", ⟨1, [[1], [0], [0], [0]]⟩)]⟩ rfl rfl⟩

/-- A ceilings record with every value given as a bare integer. -/
def SizeConstraints.toRawInt (sc : SizeConstraints) : RawSizeConstraints :=
  ⟨.int sc.total_num_components,
   sc.total_num_nodes.map (fun p => (p.1, CeilingValue.int p.2)),
   sc.total_num_edges.map (fun p => (p.1, CeilingValue.int p.2))⟩

/-- A ceilings record with every value boxed in a single-element numeric
container. -/
def SizeConstraints.toRawBoxed (sc : SizeConstraints) : RawSizeConstraints :=
  ⟨.container [sc.total_num_components],
   sc.total_num_nodes.map (fun p => (p.1, CeilingValue.container [p.2])),
   sc.total_num_edges.map (fun p => (p.1, CeilingValue.container [p.2]))⟩

theorem normalizeEntries_int :
    ∀ l : List (String × Nat),
      normalizeEntries (l.map (fun p => (p.1, CeilingValue.int p.2))) = .ok l
  | [] => rfl
  | p :: t => by
      simp [normalizeEntries, CeilingValue.toInt, normalizeEntries_int t,
        Bind.bind, Except.bind, Pure.pure, Except.pure]

theorem normalizeEntries_boxed :
    ∀ l : List (String × Nat),
      normalizeEntries (l.map (fun p => (p.1, CeilingValue.container [p.2]))) =
        .ok l
  | [] => rfl
  | p :: t => by
      simp [normalizeEntries, CeilingValue.toInt, normalizeEntries_boxed t,
        Bind.bind, Except.bind, Pure.pure, Except.pure]

theorem normalizeConstraints_int (sc : SizeConstraints) :
    normalizeConstraints sc.toRawInt = .ok sc := by
  simp [normalizeConstraints, SizeConstraints.toRawInt, CeilingValue.toInt,
    normalizeEntries_int, Bind.bind, Except.bind, Pure.pure, Except.pure]

theorem normalizeConstraints_boxed (sc : SizeConstraints) :
    normalizeConstraints sc.toRawBoxed = .ok sc := by
  simp [normalizeConstraints, SizeConstraints.toRawBoxed, CeilingValue.toInt,
    normalizeEntries_boxed, Bind.bind, Except.bind, Pure.pure, Except.pure]

/-- C7: every ceiling value given either as a bare integer or as a
single-element numeric container is accepted and normalized to a plain
integer; padding with the container form produces the same result as
padding with the equivalent bare integers; a container of any other size
fails with a type error. -/
theorem ceiling_normalization (g : GraphTensor) (sc : SizeConstraints) :
    normalizeConstraints sc.toRawInt = .ok sc ∧
    normalizeConstraints sc.toRawBoxed = .ok sc ∧
    padToTotalSizesRaw g sc.toRawInt = padToTotalSizes g sc ∧
    padToTotalSizesRaw g sc.toRawBoxed = padToTotalSizesRaw g sc.toRawInt ∧
    (∀ xs : List Nat, xs.length ≠ 1 →
      CeilingValue.toInt (.container xs) = .error .malformedCeiling) := by
  refine ⟨normalizeConstraints_int sc, normalizeConstraints_boxed sc, ?_, ?_, ?_⟩
  · simp [padToTotalSizesRaw, normalizeConstraints_int sc, Bind.bind,
      Except.bind]
  · simp [padToTotalSizesRaw, normalizeConstraints_int sc,
      normalizeConstraints_boxed sc, Bind.bind, Except.bind]
  · intro xs hxs
    match xs, hxs with
    | [], _ => rfl
    | [x], h => exact absurd rfl h
    | x :: y :: t, _ => rfl

/-- C7 witness: the theorem applied to the concrete test graph and
constraints, with the malformed-container case instantiated at the empty
container. -/
theorem ceiling_normalization_witness :
    (([] : List Nat).length ≠ 1) ∧
    normalizeConstraints testConstraints.toRawInt = .ok testConstraints ∧
    normalizeConstraints testConstraints.toRawBoxed = .ok testConstraints ∧
    padToTotalSizesRaw testGraph testConstraints.toRawBoxed =
      padToTotalSizesRaw testGraph testConstraints.toRawInt ∧
    CeilingValue.toInt (.container []) = .error .malformedCeiling := by
  have h := ceiling_normalization testGraph testConstraints
  exact ⟨by decide, h.1, h.2.1, h.2.2.2.1, h.2.2.2.2 [] (by decide)⟩

end GnnPad

namespace GnnRunner

/-- A runtime value as the preprocessor loop of `make_preprocess_model`
sees it: a graph tensor, a plain tensor, a Python tuple of values, or
anything else.  The payloads are opaque identities. -/
inductive Value where
  | graphT : Nat → Value
  | tensor : Nat → Value
  | tupleV : List Value → Value
  | other : Nat → Value

/-- Embeds `tfgnn.is_graph_tensor`. -/
def is_graph_tensor : Value → Bool
  | .graphT _ => true
  | _ => false

/-- One iteration of the preprocessor loop of `make_preprocess_model`
(orchestration.py, lines 136-151): inspect `output = fn(x)` and either
update the running graph `x` and label `y` or raise a `ValueError`,
following the Python branch order exactly. -/
def processOutput (y : Option Value) : Value →
    Except String (Value × Option Value)
  | .tupleV [a, b] =>
      if is_graph_tensor a && y.isNone then .ok (a, some b)
      else if y.isSome then .error "Received more than one label"
      else .error "Expected (tfgnn.GraphTensor, tf.Tensor)"
  | .tupleV _ => .error "Expected (tfgnn.GraphTensor, tf.Tensor)"
  | out =>
      if is_graph_tensor out then .ok (out, y)
      else .error "Expected tfgnn.GraphTensor"

/-- The whole preprocessor loop, threading `(x, y)` from `(x0, none)`. -/
def runPreprocessors : List (Value → Value) → Value → Option Value →
    Except String (Value × Option Value)
  | [], x, y => .ok (x, y)
  | f :: fs, x, y =>
      match processOutput y (f x) with
      | .ok (x2, y2) => runPreprocessors fs x2 y2
      | .error e => .error e

/-- The output of the built preprocessing model: the final graph alone, or
the pair of the final graph with the produced label
(`x if y is None else (x, y)`). -/
inductive ModelOutput where
  | single : Value → ModelOutput
  | withLabel : Value → Value → ModelOutput

/-- Embeds the preprocessor-handling part of `make_preprocess_model`
(orchestration.py): run every preprocessor over the parsed input graph
and build the model output. -/
def make_preprocess_model (preprocessors : List (Value → Value))
    (x0 : Value) : Except String ModelOutput :=
  match runPreprocessors preprocessors x0 none with
  | .ok (x, none) => .ok (.single x)
  | .ok (x, some y) => .ok (.withLabel x y)
  | .error e => .error e

/-- Whether a value is a 2-tuple. -/
def isPair2 : Value → Bool
  | .tupleV [_, _] => true
  | _ => false

/-- Whether a value is a 2-tuple whose first element is a graph tensor. -/
def isGraphPair : Value → Bool
  | .tupleV [a, _] => is_graph_tensor a
  | _ => false

/-- Follows the claim's words: a preprocessor output is a violation when
it is a 2-tuple (carrying a label) after a label was already produced, or
when it is neither a graph tensor nor a 2-tuple whose first element is a
graph tensor. -/
def claimViolation (labelProduced : Bool) (out : Value) : Bool :=
  (isPair2 out && labelProduced) ||
  !(is_graph_tensor out || isGraphPair out)

/-- Follows the claim's words: after a non-violating output, a 2-tuple
contributes its first element as the new graph and its second as the
label; a graph tensor becomes the new graph. -/
def claimNext (y : Option Value) : Value → Value × Option Value
  | .tupleV [a, b] => (a, some b)
  | out => (out, y)

theorem processOutput_error_iff (y : Option Value) (out : Value) :
    (∃ e, processOutput y out = .error e) ↔
      claimViolation y.isSome out = true := by
  cases out with
  | tupleV xs =>
      match xs with
      | [] => cases y <;> simp [processOutput, claimViolation, isPair2,
          isGraphPair, is_graph_tensor]
      | [a] => cases y <;> simp [processOutput, claimViolation, isPair2,
          isGraphPair, is_graph_tensor]
      | [a, b] =>
          cases a <;> cases y <;>
            simp [processOutput, claimViolation, isPair2, isGraphPair,
              is_graph_tensor]
      | a :: b :: c :: t => cases y <;> simp [processOutput, claimViolation,
          isPair2, isGraphPair, is_graph_tensor]
  | graphT n => cases y <;> simp [processOutput, claimViolation, isPair2,
      isGraphPair, is_graph_tensor]
  | tensor n => cases y <;> simp [processOutput, claimViolation, isPair2,
      isGraphPair, is_graph_tensor]
  | other n => cases y <;> simp [processOutput, claimViolation, isPair2,
      isGraphPair, is_graph_tensor]

theorem processOutput_ok (y : Option Value) (out : Value)
    (h : claimViolation y.isSome out = false) :
    processOutput y out = .ok (claimNext y out) := by
  cases out with
  | tupleV xs =>
      match xs with
      | [] => simp [claimViolation, isPair2, isGraphPair,
          is_graph_tensor] at h
      | [a] => simp [claimViolation, isPair2, isGraphPair,
          is_graph_tensor] at h
      | [a, b] =>
          cases a <;> cases y <;>
            simp_all [processOutput, claimViolation, isPair2, isGraphPair,
              is_graph_tensor, claimNext]
      | a :: b :: c :: t => simp [claimViolation, isPair2, isGraphPair,
          is_graph_tensor] at h
  | graphT n => simp [processOutput, is_graph_tensor, claimNext]
  | tensor n => simp [claimViolation, isPair2, isGraphPair,
      is_graph_tensor] at h
  | other n => simp [claimViolation, isPair2, isGraphPair,
      is_graph_tensor] at h

/-- Follows the claim's words: the run over the preprocessor sequence,
returning `none` exactly when one of the two ValueError conditions of the
claim fires, and the final `(graph, label?)` state otherwise. -/
def claimRun : List (Value → Value) → Value → Option Value →
    Option (Value × Option Value)
  | [], x, y => some (x, y)
  | f :: fs, x, y =>
      if claimViolation y.isSome (f x) then none
      else claimRun fs (claimNext y (f x)).1 (claimNext y (f x)).2

theorem runPreprocessors_claimRun :
    ∀ (fns : List (Value → Value)) (x : Value) (y : Option Value)
      (p : Value × Option Value),
      runPreprocessors fns x y = .ok p ↔ claimRun fns x y = some p
  | [], x, y, p => by simp [runPreprocessors, claimRun]
  | f :: fs, x, y, p => by
      cases hv : claimViolation y.isSome (f x) with
      | true =>
          obtain ⟨e, he⟩ := (processOutput_error_iff y (f x)).mpr hv
          simp [runPreprocessors, claimRun, he, hv]
      | false =>
          simp only [runPreprocessors, claimRun,
            processOutput_ok y (f x) hv, hv, Bool.false_eq_true, if_false]
          exact runPreprocessors_claimRun fs _ _ p

/-- C9: `make_preprocess_model` raises a ValueError exactly when some
preprocessor returns a 2-tuple after a label was already produced, or
returns a value that is neither a graph tensor nor a 2-tuple whose first
element is a graph tensor; otherwise it builds a model whose output is the
final graph alone when no label was produced and the pair (graph, label)
when exactly one label was produced. -/
theorem make_preprocess_model_spec (fns : List (Value → Value))
    (x0 : Value) :
    ((∃ e, make_preprocess_model fns x0 = .error e) ↔
      claimRun fns x0 none = none) ∧
    (∀ x, claimRun fns x0 none = some (x, none) →
      make_preprocess_model fns x0 = .ok (.single x)) ∧
    (∀ x y, claimRun fns x0 none = some (x, some y) →
      make_preprocess_model fns x0 = .ok (.withLabel x y)) := by
  refine ⟨⟨?_, ?_⟩, ?_, ?_⟩
  · rintro ⟨e, he⟩
    unfold make_preprocess_model at he
    cases hc : claimRun fns x0 none with
    | none => rfl
    | some p =>
        have := (runPreprocessors_claimRun fns x0 none p).mpr hc
        rw [this] at he
        rcases p with ⟨x, _ | y⟩ <;> cases he
  · intro hc
    unfold make_preprocess_model
    cases hr : runPreprocessors fns x0 none with
    | error e => exact ⟨e, rfl⟩
    | ok p =>
        have := (runPreprocessors_claimRun fns x0 none p).mp hr
        rw [this] at hc
        cases hc
  · intro x hc
    have := (runPreprocessors_claimRun fns x0 none (x, none)).mpr hc
    unfold make_preprocess_model
    rw [this]
  · intro x y hc
    have := (runPreprocessors_claimRun fns x0 none (x, some y)).mpr hc
    unfold make_preprocess_model
    rw [this]

/-- C9 witness: a single preprocessor returning the pair of the graph and
a label tensor yields a model outputting that (graph, label) pair. -/
theorem make_preprocess_model_spec_witness :
    claimRun [fun v => Value.tupleV [v, Value.tensor 7]] (Value.graphT 0)
      none = some (Value.graphT 0, some (Value.tensor 7)) ∧
    make_preprocess_model [fun v => Value.tupleV [v, Value.tensor 7]]
      (Value.graphT 0) = .ok (.withLabel (Value.graphT 0) (Value.tensor 7)) :=
  ⟨rfl,
   (make_preprocess_model_spec [fun v => Value.tupleV [v, Value.tensor 7]]
     (Value.graphT 0)).2.2 (Value.graphT 0) (Value.tensor 7) rfl⟩

/-- Embeds `os.path.join` for the fixed relative component "export". -/
def path_join (a b : String) : String :=
  if a = "" then b
  else if a.endsWith "/" then a ++ b
  else a ++ "/" ++ b

/-- Embeds the Python expression
`export_dirs or [os.path.join(trainer.model_dir, "export")]` at the end of
`run` (orchestration.py): the default singleton is used when `export_dirs`
is None or an empty (falsy) list. -/
def exportTargets (export_dirs : Option (List String))
    (model_dir : String) : List String :=
  match export_dirs with
  | none => [path_join model_dir "export"]
  | some ds => if ds.isEmpty then [path_join model_dir "export"] else ds

/-- Embeds the final export loop of `run`: `model_for_export.save(d)` once
per target directory, in order; the returned list records the save calls
made. -/
def runSaves (export_dirs : Option (List String))
    (model_dir : String) : List String :=
  (exportTargets export_dirs model_dir).foldl (fun acc d => acc ++ [d]) []

theorem foldl_append_singleton :
    ∀ (l acc : List String), l.foldl (fun a d => a ++ [d]) acc = acc ++ l
  | [], acc => by simp
  | d :: t, acc => by
      simp [List.foldl_cons, foldl_append_singleton t (acc ++ [d])]

/-- C10: when `export_dirs` is None or empty, the trained model is saved
exactly once, to `trainer.model_dir` joined with "export"; when it is a
non-empty sequence, the model is saved once to each listed directory in
order, and `trainer.model_dir` is not used. -/
theorem run_export_behavior (export_dirs : Option (List String))
    (model_dir : String) :
    ((export_dirs = none ∨ export_dirs = some []) →
      runSaves export_dirs model_dir = [path_join model_dir "export"]) ∧
    (∀ ds, export_dirs = some ds → ds ≠ [] →
      runSaves export_dirs model_dir = ds) := by
  constructor
  · rintro (h | h) <;> subst h <;>
      simp [runSaves, exportTargets, foldl_append_singleton]
  · rintro ds rfl hne
    simp [runSaves, exportTargets, foldl_append_singleton, hne]

/-- C10 witness: with two explicit export directories the model is saved
to exactly those, in order; the default path is not used. -/
theorem run_export_behavior_witness :
    (some ["a", "b"] = some (["a", "b"] : List String)) ∧
    (["a", "b"] : List String) ≠ [] ∧
    runSaves (some ["a", "b"]) "model" = ["a", "b"] :=
  ⟨rfl, by decide,
   (run_export_behavior (some ["a", "b"]) "model").2 ["a", "b"] rfl
     (by decide)⟩

end GnnRunner
